import Mathlib

/-!
# Verification of the mem0 MCP server core

Shallow embedding of `src/mcp-ecosystem/servers/main.py`: the rate limiter
(`check_rate_limit`), the result cache (`get_cached_result` /
`set_cached_result` / `get_cache_key`), the backend client registry
(`get_memory_client_safe`), request authentication (`verify_api_key` /
`authenticate_request`) and the tool operations `search_memories`,
`delete_memories` and `batch_add_memories`.

Modeling conventions, stated once here:

* Python module-level dictionaries (`_rate_limit_store`, `_memory_cache`)
  are embedded as insertion-ordered association lists `List (String × _)`,
  matching CPython `dict` semantics (overwrite keeps the key's position,
  a new key is appended, iteration follows insertion order).
* The source reads its "clock" inline (`secrets.randbelow(1000000)`, which
  the source comments call a "simple time simulation").  Every function
  that reads the clock takes the sampled value as an explicit `Nat`
  parameter `t`.  The source compares `t - start > W` on Python integers;
  on `Nat` the truncated subtraction takes the same branch in every case
  (a negative Python difference is never `> W`, and truncation to `0` is
  never `> W` either), so `Nat` arithmetic is faithful here.
* Calls into the external `mem0` library (client constructors,
  `update_project`, per-record `add`, the backend `search`) are embedded
  as explicit function parameters: the library is an external collaborator,
  not part of this repository.
* `hashlib.md5` hex digests of serialized parameters are embedded as an
  explicit digest-function parameter `digest`; where a claim needs it, the
  facts that a hex digest contains no `':'` is a hypothesis.  The
  fingerprint built by the registry from the five configuration values is
  embedded as the `"|"`-joined string itself (the md5 step is injective
  for the purpose of change detection).
* `json.dumps(list_of_strings, indent=2)` is embedded concretely as
  `jsonDumpsList` (same layout CPython produces for ASCII content).
* The tool parameter `limit: int` is embedded as `Int`, with `[:limit]`
  following Python slice semantics (`pySliceTo`): a negative limit keeps
  all but the last `-limit` elements.
* A parsed JSON array element in `batch_add_memories` is a `PyElem`:
  a string, or a non-string value whose `[:50]` raises `TypeError`
  (number, boolean, null, object), carrying that error's `str(e)` text.
-/

namespace Mem0

/-! ## Association lists standing for Python dicts -/

/-- Lookup in an insertion-ordered association list (`d[k]` / `k in d`). -/
def lookupA {α : Type} : List (String × α) → String → Option α
  | [], _ => none
  | (k', v) :: rest, k => if k' = k then some v else lookupA rest k

/-- Write `d[k] = v`: overwrite in place, or append a fresh key. -/
def setA {α : Type} : List (String × α) → String → α → List (String × α)
  | [], k, v => [(k, v)]
  | (k', v') :: rest, k, v =>
    if k' = k then (k, v) :: rest else (k', v') :: setA rest k v

/-- Python `del d[k]` (removes every binding of `k`; a dict has at most one). -/
def eraseA {α : Type} : List (String × α) → String → List (String × α)
  | [], _ => []
  | (k', v') :: rest, k =>
    if k' = k then eraseA rest k else (k', v') :: eraseA rest k

/-! ## Rate limiter (`check_rate_limit`, main.py lines 90-110) -/

/-- The `MAX_REQUESTS_PER_MINUTE` constant from the source. -/
def MAX_REQUESTS_PER_MINUTE : Nat := 60

/-- The `REQUEST_WINDOW_SECONDS` constant from the source. -/
def REQUEST_WINDOW_SECONDS : Nat := 60

/-- One value of `_rate_limit_store`: `{"count": _, "window_start": _}`. -/
structure RateWindow where
  count : Nat
  windowStart : Nat
deriving DecidableEq

/-- The rate-limit store `_rate_limit_store`. -/
def RateStore : Type := List (String × RateWindow)

/-- The source's `check_rate_limit(client_ip, user_id)`; `currentTime` is the sampled
clock value.  Returns the boolean result and the updated store. -/
def check_rate_limit (clientIp userId : String) (currentTime : Nat)
    (store : List (String × RateWindow)) :
    Bool × List (String × RateWindow) :=
  let key := clientIp ++ ":" ++ userId
  -- if key not in _rate_limit_store: insert {"count": 0, "window_start": now}
  let store1 := match lookupA store key with
    | none => setA store key ⟨0, currentTime⟩
    | some _ => store
  let wd0 := (lookupA store1 key).getD ⟨0, currentTime⟩
  -- reset window if expired
  let store2 := if currentTime - wd0.windowStart > REQUEST_WINDOW_SECONDS
    then setA store1 key ⟨0, currentTime⟩ else store1
  let wd := (lookupA store2 key).getD ⟨0, currentTime⟩
  -- check limit
  if wd.count ≥ MAX_REQUESTS_PER_MINUTE then (false, store2)
  else (true, setA store2 key { wd with count := wd.count + 1 })

/-- Iterate `check_rate_limit` for one key over a list of sampled clock
values, collecting the boolean answers. -/
def runCalls (clientIp userId : String) :
    List Nat → List (String × RateWindow) →
    List Bool × List (String × RateWindow)
  | [], store => ([], store)
  | t :: ts, store =>
    let r := check_rate_limit clientIp userId t store
    let rest := runCalls clientIp userId ts r.2
    (r.1 :: rest.1, rest.2)

/-! ## Result cache (`get_cached_result` / `set_cached_result`,
main.py lines 252-273) -/

/-- The `CACHE_TTL_SECONDS` constant from the source. -/
def CACHE_TTL_SECONDS : Nat := 300

/-- The literal `100` ("Max cache size") in `set_cached_result`. -/
def MAX_CACHE_SIZE : Nat := 100

/-- One value of `_memory_cache`: `{"result": _, "timestamp": _}`. -/
structure CacheEntry where
  result : String
  timestamp : Nat
deriving DecidableEq

/-- The source's `get_cached_result(cache_key)`; `t` is the sampled clock value.
Returns the cached result (or `none`) and the updated cache. -/
def get_cached_result (t : Nat) (cacheKey : String)
    (cache : List (String × CacheEntry)) :
    Option String × List (String × CacheEntry) :=
  match lookupA cache cacheKey with
  | some e =>
    if t - e.timestamp < CACHE_TTL_SECONDS then (some e.result, cache)
    else (none, eraseA cache cacheKey)
  | none => (none, cache)

/-- Python `min(_memory_cache.keys(), key=lambda k: _memory_cache[k]["timestamp"])`,
threading the best candidate so far; on ties the earlier key wins, as for
CPython `min` over insertion-ordered keys. -/
def oldestKeyAux : String → Nat → List (String × CacheEntry) → String
  | k, _, [] => k
  | k, ts, (k', e) :: rest =>
    if e.timestamp < ts then oldestKeyAux k' e.timestamp rest
    else oldestKeyAux k ts rest

/-- The key with the smallest timestamp (none on an empty cache). -/
def oldestKey : List (String × CacheEntry) → Option String
  | [] => none
  | (k, e) :: rest => some (oldestKeyAux k e.timestamp rest)

/-- The source's `set_cached_result(cache_key, result)`; `t` is the sampled clock value
stored as the entry's timestamp. -/
def set_cached_result (t : Nat) (cacheKey result : String)
    (cache : List (String × CacheEntry)) : List (String × CacheEntry) :=
  let cache1 := setA cache cacheKey ⟨result, t⟩
  if cache1.length > MAX_CACHE_SIZE then
    match oldestKey cache1 with
    | some k => eraseA cache1 k
    | none => cache1
  else cache1

/-- A concrete cache holding 100 distinct keys `"0"`..`"99"` with timestamps
`0`..`99`, used to exercise the eviction bound. -/
def witnessCache : List (String × CacheEntry) :=
  (List.range 100).map (fun i => (toString i, ⟨"r", i⟩))

/-! ## Backend client registry (`get_memory_client_safe`, main.py 134-245) -/

/-- The two client classes of the external `mem0` library
(`mem0.client.MemoryClient` vs `mem0.Memory`), used by the source's
`isinstance` dispatch. -/
inductive ClientKind where
  | cloud
  | localMem
deriving DecidableEq

/-- A backend handle; `id` distinguishes instances, so that "same handle
instance" and "new handle" are expressible. -/
structure Client where
  kind : ClientKind
  id : Nat
deriving DecidableEq

/-- The five environment values the registry fingerprints: `MEM0_API_KEY`,
`QDRANT_HOST`, `QDRANT_PORT`, `OLLAMA_HOST`, `LLAMA_CPP_MODEL`, after the
source's `os.getenv` defaulting (`""` = unset). -/
structure RegEnv where
  mem0ApiKey : String
  qdrantHost : String
  qdrantPort : String
  ollamaHost : String
  llamaCppModel : String
deriving DecidableEq

/-- The string `"|".join(config_parts)`.  The source md5-hashes this string; the hash
step is injective for the purpose of change detection and is modeled by the
joined string itself. -/
def fingerprint (env : RegEnv) : String :=
  env.mem0ApiKey ++ "|" ++ env.qdrantHost ++ "|" ++ env.qdrantPort ++ "|" ++
    env.ollamaHost ++ "|" ++ env.llamaCppModel

/-- The registry's module-level state: `_memory_client`,
`_memory_client_config_hash`, `_memory_client_initialized`. -/
structure RegState where
  client : Option Client
  configHash : Option String
  initialized : Bool
deriving DecidableEq

/-- The state at module load. -/
def initRegState : RegState := ⟨none, none, false⟩

/-- The registry entry point `get_memory_client_safe()`.  External library calls are parameters:
`constructCloud` models `MemoryClient(api_key=...)` (`none` = the
constructor raised), `updateOk` models whether the subsequent
`update_project(...)` call succeeds (it runs after `_memory_client` was
assigned, so on its failure the handle stays stored while `None` is
returned), and `constructLocal` models `Memory.from_config(...)` (`none` =
raised; the Ollama / llama.cpp branches only choose the config dict passed
to `from_config`, so they are folded into this parameter).  Returns the
Python return value and the new module state. -/
def get_memory_client_safe (constructCloud : RegEnv → Option Client)
    (updateOk : Client → Bool) (constructLocal : RegEnv → Option Client)
    (env : RegEnv) (st : RegState) : Option Client × RegState :=
  -- "Only initialize once"
  if st.initialized then (st.client, st)
  else
    let st1 := { st with initialized := true }
    let h := fingerprint env
    -- "Reinitialize if config changed"
    let st2 := if st1.configHash ≠ some h
      then { st1 with client := none, configHash := some h } else st1
    if env.mem0ApiKey ≠ "" then
      match st2.client with
      | some c =>
        if c.kind = ClientKind.cloud then (some c, st2)
        else
          match constructCloud env with
          | some c' =>
            if updateOk c' then (some c', { st2 with client := some c' })
            else (none, { st2 with client := some c' })
          | none => (none, st2)
      | none =>
        match constructCloud env with
        | some c' =>
          if updateOk c' then (some c', { st2 with client := some c' })
          else (none, { st2 with client := some c' })
        | none => (none, st2)
    else
      match st2.client with
      | some c =>
        if c.kind = ClientKind.localMem then (some c, st2)
        else
          match constructLocal env with
          | some c' => (some c', { st2 with client := some c' })
          | none => (none, st2)
      | none =>
        match constructLocal env with
        | some c' => (some c', { st2 with client := some c' })
        | none => (none, st2)

/-! ## Substring search (Python `in` on strings) -/

/-- Whether `pat` occurs contiguously in `s`. -/
def hasInfix (pat : List Char) : List Char → Bool
  | [] => pat.isEmpty
  | c :: rest => pat.isPrefixOf (c :: rest) || hasInfix pat rest

/-- Python `pat in s` for strings. -/
def strContains (s pat : String) : Bool := hasInfix pat.data s.data

/-! ## Tag parsing (`tags.split(',')` + `strip`) and JSON rendering -/

/-- Python `s.split(',')` on the character list. -/
def pySplitComma : List Char → List (List Char)
  | [] => [[]]
  | c :: rest =>
    let r := pySplitComma rest
    if c = ',' then [] :: r
    else match r with
      | [] => [[c]]
      | g :: gs => (c :: g) :: gs

/-- Python `s.strip()` (whitespace on both ends). -/
def pyStrip (cs : List Char) : List Char :=
  ((cs.dropWhile Char.isWhitespace).reverse.dropWhile Char.isWhitespace).reverse

/-- Python `[tag.strip() for tag in tags.split(",") if tag.strip()] if tags else []`,
shared by `add_memories`, `search_memories` and `delete_memories`. -/
def parseTags (tags : String) : List String :=
  if tags = "" then []
  else ((pySplitComma tags.data).map (fun cs => (⟨pyStrip cs⟩ : String))).filter
    (fun s => decide (s ≠ ""))

/-- JSON string escaping for the content appearing here (quote and
backslash; control-character escapes do not arise in these texts). -/
def jsonEscape : List Char → List Char
  | [] => []
  | c :: rest =>
    if c = '"' ∨ c = '\\' then '\\' :: c :: jsonEscape rest
    else c :: jsonEscape rest

/-- The `json.dumps` rendering of one string value. -/
def jsonQuote (s : String) : String := ⟨'"' :: (jsonEscape s.data ++ ['"'])⟩

/-- Python `sep.join(parts)`. -/
def joinSep (sep : String) : List String → String
  | [] => ""
  | [s] => s
  | s :: rest => s ++ sep ++ joinSep sep rest

/-- The `json.dumps(l, indent=2)` text for a list of strings, the exact layout
CPython produces. -/
def jsonDumpsList (l : List String) : String :=
  match l with
  | [] => "[]"
  | _ => "[\n  " ++ joinSep ",\n  " (l.map jsonQuote) ++ "\n]"

/-! ## Cache keys (`get_cache_key`, main.py 247-250) -/

/-- The source's `get_cache_key(operation, user_id, params)` for the search parameters
`{"query": _, "limit": _, "tags": _}` (the only params used in the source);
`digest` stands for `hashlib.md5(json.dumps(params,
sort_keys=True).encode()).hexdigest()`. -/
def get_cache_key (digest : String → Int → String → String)
    (operation userId : String) (query : String) (limit : Int)
    (tags : String) : String :=
  operation ++ ":" ++ userId ++ ":" ++ digest query limit tags

/-! ## `search_memories` (main.py 377-443) -/

/-- One normalized backend record as consumed by `search_memories`:
`memory["memory"]` and `memory.get("metadata", {}).get("tags", [])`. -/
structure Record where
  memory : String
  tags : List String
deriving DecidableEq

/-- Python list slicing `l[:limit]` for a Python `int` limit: a
non-negative limit keeps at most the first `limit` elements; a negative
limit keeps all but the last `-limit`. -/
def pySliceTo {α : Type} (l : List α) (limit : Int) : List α :=
  if 0 ≤ limit then l.take limit.toNat
  else l.take (l.length - (-limit).toNat)

/-- The list `flattened_memories`: client-side tag filtering against each record's
own tag metadata, then the slice `[:limit]` (the tool declares
`limit: int`, so negative limits are reachable and follow Python slice
semantics), then projection to the `memory` text. -/
def searchFlattened (allMems : List Record) (limit : Int)
    (filterTags : List String) : List String :=
  if filterTags ≠ [] then
    (pySliceTo (allMems.filter
        (fun m => filterTags.any (fun tg => m.tags.contains tg)))
      limit).map Record.memory
  else (pySliceTo allMems limit).map Record.memory

/-- The tool `search_memories(query, limit, tags)`.  `allMems` is the normalized
record list the backend returns for this query and user (the semantic
search itself is external); `t` is the call's sampled clock value, shared
by its cache probe and cache store; `digest` as in `get_cache_key`.
Returns the JSON text and the updated cache. -/
def search_memories (digest : String → Int → String → String) (t : Nat)
    (uid : String) (allMems : List Record) (query : String) (limit : Int)
    (tags : String) (cache : List (String × CacheEntry)) :
    String × List (String × CacheEntry) :=
  let filterTags := parseTags tags
  let cacheKey := get_cache_key digest "search" uid query limit tags
  let probe := get_cached_result t cacheKey cache
  match probe with
  | (some r, cache') =>
    -- `if cached_result and not filter_tags: return cached_result`
    if r ≠ "" ∧ filterTags = [] then (r, cache')
    else
      let result := jsonDumpsList (searchFlattened allMems limit filterTags)
      if filterTags = [] then
        (result, set_cached_result t cacheKey result cache')
      else (result, cache')
  | (none, cache') =>
    let result := jsonDumpsList (searchFlattened allMems limit filterTags)
    if filterTags = [] then
      (result, set_cached_result t cacheKey result cache')
    else (result, cache')

/-! ## `delete_memories` (main.py 449-507) -/

/-- The tool `delete_memories(query, tags, delete_all)`.  `avail` is whether
`get_memory_client_safe()` returned a handle; `loads` models `json.loads`
on the inner search's text result (`none` = `JSONDecodeError`); the
backend is the per-user store of the external collaborator, embedded as an
association list so that `delete_all` is expressible.  Returns the status
text, the updated cache and the updated backend. -/
def delete_memories (digest : String → Int → String → String)
    (loads : String → Option (List String)) (t : Nat) (avail : Bool)
    (uid : String) (allMems : List Record) (query tags : String)
    (deleteAll : Bool) (cache : List (String × CacheEntry))
    (backend : List (String × List String)) :
    String × List (String × CacheEntry) × List (String × List String) :=
  if avail = false then ("Error: Memory system unavailable", cache, backend)
  else if deleteAll then
    let backend' := setA backend uid []
    -- keys_to_remove = [k for k in _memory_cache.keys() if f":{uid}:" in k]
    let pat := ":" ++ uid ++ ":"
    let cache' := cache.filter (fun kv => !(strContains kv.1 pat))
    ("Successfully deleted all memories", cache', backend')
  else if query ≠ "" ∨ tags ≠ "" then
    let sr := search_memories digest t uid allMems query 100 tags cache
    match loads sr.1 with
    | some mems =>
      if mems.length = 0 then
        ("No memories found matching the criteria", sr.2, backend)
      else
        ("Found " ++ toString mems.length ++
            " memories matching criteria, but selective deletion is not yet supported. Use delete_all=true to delete all memories.",
          sr.2, backend)
    | none => ("Error parsing search results for deletion", sr.2, backend)
  else ("Error: Must specify either query/tags or delete_all=true", cache, backend)

/-- Provenance of one cache entry: the call whose `get_cache_key` produced
its key. -/
structure CacheProv where
  owner : String
  query : String
  limit : Int
  tags : String
  entry : CacheEntry

/-- The key a provenance record denotes. -/
def provKey (digest : String → Int → String → String) (p : CacheProv) :
    String :=
  get_cache_key digest "search" p.owner p.query p.limit p.tags

/-- A cache whose every entry carries its provenance. -/
def provCache (digest : String → Int → String → String)
    (l : List CacheProv) : List (String × CacheEntry) :=
  l.map (fun p => (provKey digest p, p.entry))

/-! ## `batch_add_memories` (main.py 513-555) -/

/-- The `BATCH_SIZE_LIMIT` constant from the source. -/
def BATCH_SIZE_LIMIT : Nat := 10

/-- Python `memory_text[:50]`. -/
def truncate50 (s : String) : String := ⟨s.data.take 50⟩

/-- One parsed element of the JSON array: a string, or a JSON value that
is not a string and does not support Python slicing (a number, boolean,
null or object); `sliceErr` is the `str(e)` text of the `TypeError` its
`[:50]` raises — for a number, the int-object-is-not-subscriptable
message. -/
inductive PyElem where
  | str (s : String)
  | nonStr (sliceErr : String)
deriving DecidableEq

/-- Outcome of `json.loads(memories)` in `batch_add_memories`: a parse
failure, a JSON value that is not an array, or an array of elements. -/
inductive BatchInput where
  | notJson
  | nonArray
  | arr (ms : List PyElem)

/-- The per-element loop.  `addErr m = some e` models the
`memory_client.add` call raising with message `e` for element `m`, `none`
models success (the element is stored for `uid`).  For a string element
the per-element `try` confines `add` failures to that element's line.  For
a non-string element, `memory_text[:50]` raises `TypeError` — in the
success line after the element was already stored, or in the `except`
handler's own f-string after `add` raised — and in both cases the
exception escapes the loop: the result is `Except.error` carrying the
`TypeError` text, lines collected so far are discarded, and the remaining
elements are never attempted (earlier backend writes persist). -/
def batchLoop (addErr : PyElem → Option String) (uid : String) :
    List PyElem → List (String × List PyElem) →
    Except String (List String) × List (String × List PyElem)
  | [], backend => (Except.ok [], backend)
  | PyElem.str s :: ms, backend =>
    match addErr (PyElem.str s) with
    | none =>
      let backend' := setA backend uid
        ((lookupA backend uid).getD [] ++ [PyElem.str s])
      match batchLoop addErr uid ms backend' with
      | (Except.ok lines, b) =>
        (Except.ok (("✓ Added: " ++ truncate50 s ++ "...") :: lines), b)
      | (Except.error e', b) => (Except.error e', b)
    | some e =>
      match batchLoop addErr uid ms backend with
      | (Except.ok lines, b) =>
        (Except.ok (("✗ Failed: " ++ truncate50 s ++ "... - " ++ e) ::
          lines), b)
      | (Except.error e', b) => (Except.error e', b)
  | PyElem.nonStr err :: _, backend =>
    match addErr (PyElem.nonStr err) with
    | none =>
      (Except.error err, setA backend uid
        ((lookupA backend uid).getD [] ++ [PyElem.nonStr err]))
    | some _ => (Except.error err, backend)

/-- The tool `batch_add_memories(memories)`.  An exception escaping the
per-element loop reaches the function-level handler, which returns
`"Error in batch operation: " ++ str(e)`. -/
def batch_add_memories (addErr : PyElem → Option String) (avail : Bool)
    (uid : String) (input : BatchInput)
    (backend : List (String × List PyElem)) :
    String × List (String × List PyElem) :=
  if avail = false then ("Error: Memory system unavailable", backend)
  else
    match input with
    | BatchInput.notJson => ("Error: invalid JSON format for memories", backend)
    | BatchInput.nonArray => ("Error: memories must be a JSON array", backend)
    | BatchInput.arr ms =>
      if ms.length > BATCH_SIZE_LIMIT then
        ("Error: batch size limited to " ++ toString BATCH_SIZE_LIMIT ++
          " memories", backend)
      else
        match batchLoop addErr uid ms backend with
        | (Except.ok lines, b) =>
          ("Batch operation completed:\n" ++ joinSep "\n" lines, b)
        | (Except.error e, b) => ("Error in batch operation: " ++ e, b)

/-- The line emitted for a string element. -/
def strLineFor (addErr : PyElem → Option String) (s : String) : String :=
  match addErr (PyElem.str s) with
  | none => "\u2713 Added: " ++ truncate50 s ++ "..."
  | some e => "\u2717 Failed: " ++ truncate50 s ++ "... - " ++ e

/-! ## Authentication (`verify_api_key` / `authenticate_request`,
main.py 76-82 and 112-132) -/

/-- The source's `verify_api_key(api_key)`; `allowedEnv` is
`os.getenv("ALLOWED_API_KEYS", "")`. -/
def verify_api_key (allowedEnv : String) (apiKey : String) : Bool :=
  let allowedKeys := (pySplitComma allowedEnv.data).map
    (fun cs => (⟨cs⟩ : String))
  if allowedKeys = [] ∨ allowedKeys = [""] then true
  else allowedKeys.contains apiKey

/-- Outcome of `authenticate_request`: success with the session data, or
one of the two `HTTPException`s (401 "Invalid API key",
429 "Rate limit exceeded"). -/
inductive AuthOutcome where
  | ok (userId clientIp : String)
  | invalidKey
  | rateLimited
deriving DecidableEq

/-- The source's `authenticate_request(request)`: `apiKey` is
`request.headers.get("X-API-Key")` (absent header = `none`), `clientHost`
is `request.client.host` when a client is attached, `pathUserId` is
`request.path_params.get("user_id")`; `t` is the rate limiter's sampled
clock value. -/
def authenticate_request (allowedEnv : String) (apiKey : Option String)
    (clientHost : Option String) (pathUserId : Option String) (t : Nat)
    (store : List (String × RateWindow)) :
    AuthOutcome × List (String × RateWindow) :=
  -- `if api_key and not verify_api_key(api_key)`
  let key := apiKey.getD ""
  if key ≠ "" ∧ verify_api_key allowedEnv key = false then
    (AuthOutcome.invalidKey, store)
  else
    let clientIp := clientHost.getD "unknown"
    let userId := pathUserId.getD "anonymous"
    let r := check_rate_limit clientIp userId t store
    if r.1 then (AuthOutcome.ok userId clientIp, r.2)
    else (AuthOutcome.rateLimited, r.2)

end Mem0

namespace Mem0

/-! ## Association list lemmas -/

theorem lookupA_setA_self {α : Type} (l : List (String × α)) (k : String) (v : α) :
    lookupA (setA l k v) k = some v := by
  induction l with
  | nil => simp [setA, lookupA]
  | cons p rest ih =>
    obtain ⟨k', v'⟩ := p
    by_cases h : k' = k
    · simp [setA, lookupA, h]
    · simp [setA, lookupA, h, ih]

theorem lookupA_setA_ne {α : Type} (l : List (String × α)) (k k' : String) (v : α)
    (h : k' ≠ k) : lookupA (setA l k v) k' = lookupA l k' := by
  induction l with
  | nil => simp [setA, lookupA, Ne.symm h]
  | cons p rest ih =>
    obtain ⟨k₀, v₀⟩ := p
    by_cases h₀ : k₀ = k
    · subst h₀
      simp [setA, lookupA, Ne.symm h]
    · simp only [setA, if_neg h₀, lookupA]
      by_cases h₁ : k₀ = k'
      · simp [h₁]
      · simp [h₁, ih]

theorem setA_setA {α : Type} (l : List (String × α)) (k : String) (v v' : α) :
    setA (setA l k v) k v' = setA l k v' := by
  induction l with
  | nil => simp [setA]
  | cons p rest ih =>
    obtain ⟨k₀, v₀⟩ := p
    by_cases h : k₀ = k
    · simp [setA, h]
    · simp [setA, h, ih]

/-! ## Rate limiter: step lemmas and the window property (claim C3) -/

/-- Key present, window not expired, counter below the ceiling:
the call succeeds and increments the counter. -/
theorem check_rate_limit_below (ip uid : String) (t c ws : Nat)
    (store : List (String × RateWindow))
    (hfind : lookupA store (ip ++ ":" ++ uid) = some ⟨c, ws⟩)
    (hwin : t - ws ≤ REQUEST_WINDOW_SECONDS)
    (hc : c < MAX_REQUESTS_PER_MINUTE) :
    check_rate_limit ip uid t store =
      (true, setA store (ip ++ ":" ++ uid) ⟨c + 1, ws⟩) := by
  simp [check_rate_limit, hfind, gt_iff_lt, Nat.not_lt.mpr hwin, ge_iff_le,
    Nat.not_le.mpr hc]

/-- Key present, window not expired, counter at the ceiling:
the call fails and leaves the store unchanged. -/
theorem check_rate_limit_at_limit (ip uid : String) (t c ws : Nat)
    (store : List (String × RateWindow))
    (hfind : lookupA store (ip ++ ":" ++ uid) = some ⟨c, ws⟩)
    (hwin : t - ws ≤ REQUEST_WINDOW_SECONDS)
    (hc : c ≥ MAX_REQUESTS_PER_MINUTE) :
    check_rate_limit ip uid t store = (false, store) := by
  simp [check_rate_limit, hfind, Nat.not_lt.mpr hwin, hc]

/-- Key present, window expired: the window is reset to count `0` at the
new time and the call succeeds (storing count `1` after its increment). -/
theorem check_rate_limit_reset (ip uid : String) (t c ws : Nat)
    (store : List (String × RateWindow))
    (hfind : lookupA store (ip ++ ":" ++ uid) = some ⟨c, ws⟩)
    (hwin : t - ws > REQUEST_WINDOW_SECONDS) :
    check_rate_limit ip uid t store =
      (true, setA store (ip ++ ":" ++ uid) ⟨1, t⟩) := by
  simp [check_rate_limit, hfind, hwin, lookupA_setA_self, setA_setA,
    MAX_REQUESTS_PER_MINUTE]

/-- Fresh key: an entry `{count := 0, window_start := t}` is created and
immediately incremented; the call succeeds. -/
theorem check_rate_limit_fresh (ip uid : String) (t : Nat)
    (store : List (String × RateWindow))
    (hfind : lookupA store (ip ++ ":" ++ uid) = none) :
    check_rate_limit ip uid t store =
      (true, setA store (ip ++ ":" ++ uid) ⟨1, t⟩) := by
  simp [check_rate_limit, hfind, lookupA_setA_self, setA_setA,
    MAX_REQUESTS_PER_MINUTE, REQUEST_WINDOW_SECONDS]

/-- In-window calls while the counter stays below the ceiling: all succeed,
and the counter advances by the number of calls. -/
theorem runCalls_inWindow (ip uid : String) (ts : List Nat) (t₁ : Nat) :
    ∀ (c : Nat) (store : List (String × RateWindow)),
    lookupA store (ip ++ ":" ++ uid) = some ⟨c, t₁⟩ →
    (∀ t ∈ ts, t - t₁ ≤ REQUEST_WINDOW_SECONDS) →
    c + ts.length ≤ MAX_REQUESTS_PER_MINUTE →
    ∃ store', runCalls ip uid ts store = (List.replicate ts.length true, store') ∧
      lookupA store' (ip ++ ":" ++ uid) = some ⟨c + ts.length, t₁⟩ := by
  induction ts with
  | nil =>
    intro c store hfind _ _
    exact ⟨store, rfl, by simpa using hfind⟩
  | cons t ts ih =>
    intro c store hfind hwin hcnt
    have ht : t - t₁ ≤ REQUEST_WINDOW_SECONDS := hwin t (by simp)
    have hc : c < MAX_REQUESTS_PER_MINUTE := by
      have := hcnt
      simp only [List.length_cons] at this
      omega
    have hstep := check_rate_limit_below ip uid t c t₁ store hfind ht hc
    obtain ⟨store', h1, h2⟩ := ih (c + 1)
      (setA store (ip ++ ":" ++ uid) ⟨c + 1, t₁⟩)
      (lookupA_setA_self _ _ _)
      (fun t' ht' => hwin t' (by simp [ht']))
      (by simp only [List.length_cons] at hcnt; omega)
    refine ⟨store', ?_, ?_⟩
    · simp [runCalls, hstep, h1, List.replicate_succ]
    · have : c + 1 + ts.length = c + (ts.length + 1) := by omega
      rw [h2, this]
      rfl

/-- Running `runCalls` over a concatenation splits into two runs. -/
theorem runCalls_append (ip uid : String) (l₁ l₂ : List Nat) :
    ∀ store : List (String × RateWindow),
    runCalls ip uid (l₁ ++ l₂) store =
      ((runCalls ip uid l₁ store).1 ++
          (runCalls ip uid l₂ (runCalls ip uid l₁ store).2).1,
        (runCalls ip uid l₂ (runCalls ip uid l₁ store).2).2) := by
  induction l₁ with
  | nil => intro store; simp [runCalls]
  | cons t ts ih => intro store; simp [runCalls, ih]

/-- C3: with ceiling `N = 60` and window `W = 60`, for a key that is fresh in
the store, a first call at `t₁` followed by 59 further calls inside the window
all return `true` (60 successes), a 61st in-window call returns `false`, and a
later call whose elapsed time since the stored `window_start` exceeds `W`
resets the window (count `0`, then incremented by that call to `1` at the new
start time) and returns `true`. -/
theorem check_rate_limit_window_spec (ip uid : String) (t₁ : Nat) (ts : List Nat)
    (tlast t' : Nat) (store : List (String × RateWindow))
    (h₀ : lookupA store (ip ++ ":" ++ uid) = none)
    (hts : ∀ t ∈ ts, t - t₁ ≤ REQUEST_WINDOW_SECONDS)
    (hlen : ts.length = 59)
    (hlast : tlast - t₁ ≤ REQUEST_WINDOW_SECONDS)
    (ht' : t' - t₁ > REQUEST_WINDOW_SECONDS) :
    (runCalls ip uid (t₁ :: ts ++ [tlast]) store).1 =
        List.replicate 60 true ++ [false] ∧
      (check_rate_limit ip uid t' (runCalls ip uid (t₁ :: ts ++ [tlast]) store).2).1
          = true ∧
      lookupA (check_rate_limit ip uid t'
          (runCalls ip uid (t₁ :: ts ++ [tlast]) store).2).2 (ip ++ ":" ++ uid)
        = some ⟨1, t'⟩ := by
  have hfirst := check_rate_limit_fresh ip uid t₁ store h₀
  obtain ⟨storeB, hB1, hB2⟩ := runCalls_inWindow ip uid ts t₁ 1
    (setA store (ip ++ ":" ++ uid) ⟨1, t₁⟩) (lookupA_setA_self _ _ _) hts
    (by rw [hlen]; decide)
  have hlimit : (1 : Nat) + ts.length = 60 := by rw [hlen]
  have hB2' : lookupA storeB (ip ++ ":" ++ uid) = some ⟨60, t₁⟩ := by
    rw [hB2, hlimit]
  have hlastcall := check_rate_limit_at_limit ip uid tlast 60 t₁ storeB hB2' hlast
    (by decide)
  have hsplit : runCalls ip uid (ts ++ [tlast])
      (setA store (ip ++ ":" ++ uid) ⟨1, t₁⟩) =
      (List.replicate ts.length true ++ [false], storeB) := by
    rw [runCalls_append, hB1]
    simp [runCalls, hlastcall]
  have hrun : runCalls ip uid (t₁ :: ts ++ [tlast]) store =
      (true :: (List.replicate ts.length true ++ [false]), storeB) := by
    simp [runCalls, hfirst, hsplit]
  have hreset := check_rate_limit_reset ip uid t' 60 t₁ storeB hB2' ht'
  refine ⟨?_, ?_, ?_⟩
  · rw [hrun, hlen]
    rfl
  · rw [hrun]
    simp [hreset]
  · rw [hrun]
    simp only [hreset]
    exact lookupA_setA_self _ _ _

/-- Witness for C3 at concrete inputs: key `"a:b"`, first call at time `0`,
59 follow-ups at time `0`, a 61st call at time `60` (still in window), then a
call at time `61` (expired window). -/
theorem check_rate_limit_window_spec_witness :
    (lookupA ([] : List (String × RateWindow)) ("a" ++ ":" ++ "b") = none) ∧
      (∀ t ∈ List.replicate 59 0, t - 0 ≤ REQUEST_WINDOW_SECONDS) ∧
      ((List.replicate 59 (0 : Nat)).length = 59) ∧
      ((60 : Nat) - 0 ≤ REQUEST_WINDOW_SECONDS) ∧
      ((61 : Nat) - 0 > REQUEST_WINDOW_SECONDS) ∧
      ((runCalls "a" "b" ((0 : Nat) :: List.replicate 59 0 ++ [60]) []).1 =
          List.replicate 60 true ++ [false] ∧
        (check_rate_limit "a" "b" 61
            (runCalls "a" "b" ((0 : Nat) :: List.replicate 59 0 ++ [60]) []).2).1
            = true ∧
        lookupA (check_rate_limit "a" "b" 61
            (runCalls "a" "b" ((0 : Nat) :: List.replicate 59 0 ++ [60]) []).2).2
            ("a" ++ ":" ++ "b") = some ⟨1, 61⟩) :=
  ⟨rfl, by decide, by decide, by decide, by decide,
    check_rate_limit_window_spec "a" "b" 0 (List.replicate 59 0) 60 61 []
      rfl (by decide) (by decide) (by decide) (by decide)⟩

/-! ## More association-list lemmas (erase, membership, nodup keys) -/

theorem lookupA_eraseA_self {α : Type} (l : List (String × α)) (k : String) :
    lookupA (eraseA l k) k = none := by
  induction l with
  | nil => rfl
  | cons p rest ih =>
    obtain ⟨k₀, v₀⟩ := p
    by_cases h : k₀ = k
    · simpa [eraseA, h] using ih
    · simp [eraseA, h, lookupA, ih]

theorem lookupA_eraseA_ne {α : Type} (l : List (String × α)) (k k' : String)
    (h : k' ≠ k) : lookupA (eraseA l k) k' = lookupA l k' := by
  induction l with
  | nil => rfl
  | cons p rest ih =>
    obtain ⟨k₀, v₀⟩ := p
    by_cases h₀ : k₀ = k
    · subst h₀
      simp [eraseA, lookupA, Ne.symm h, ih]
    · simp only [eraseA, if_neg h₀, lookupA]
      by_cases h₁ : k₀ = k'
      · simp [h₁]
      · simp [h₁, ih]

theorem lookupA_of_mem {α : Type} (l : List (String × α)) (k : String) (v : α)
    (hmem : (k, v) ∈ l) (hnd : (l.map Prod.fst).Nodup) :
    lookupA l k = some v := by
  induction l with
  | nil => simp at hmem
  | cons p rest ih =>
    obtain ⟨k₀, v₀⟩ := p
    simp only [List.map_cons, List.nodup_cons] at hnd
    rcases List.mem_cons.mp hmem with h | h
    · injection h with h1 h2
      subst h1
      subst h2
      simp [lookupA]
    · by_cases h₀ : k₀ = k
      · exfalso
        apply hnd.1
        rw [h₀]
        exact List.mem_map.mpr ⟨(k, v), h, rfl⟩
      · simp [lookupA, h₀, ih h hnd.2]

theorem mem_setA {α : Type} (l : List (String × α)) (k : String) (v : α)
    (p : String × α) (hmem : p ∈ setA l k v) : p = (k, v) ∨ p ∈ l := by
  induction l with
  | nil => simpa [setA] using hmem
  | cons q rest ih =>
    obtain ⟨k₀, v₀⟩ := q
    by_cases h : k₀ = k
    · simp only [setA, if_pos h] at hmem
      rcases List.mem_cons.mp hmem with h1 | h1
      · exact Or.inl h1
      · exact Or.inr (List.mem_cons.mpr (Or.inr h1))
    · simp only [setA, if_neg h] at hmem
      rcases List.mem_cons.mp hmem with h1 | h1
      · exact Or.inr (List.mem_cons.mpr (Or.inl h1))
      · rcases ih h1 with h2 | h2
        · exact Or.inl h2
        · exact Or.inr (List.mem_cons.mpr (Or.inr h2))

theorem mem_setA_of_ne {α : Type} (l : List (String × α)) (k : String) (v : α)
    (p : String × α) (hmem : p ∈ setA l k v) (hne : p.1 ≠ k) : p ∈ l := by
  rcases mem_setA l k v p hmem with h | h
  · exact absurd (by rw [h]) hne
  · exact h

theorem nodup_keys_setA {α : Type} (l : List (String × α)) (k : String) (v : α)
    (hnd : (l.map Prod.fst).Nodup) :
    ((setA l k v).map Prod.fst).Nodup := by
  induction l with
  | nil => simp [setA]
  | cons p rest ih =>
    obtain ⟨k₀, v₀⟩ := p
    simp only [List.map_cons, List.nodup_cons] at hnd
    by_cases h : k₀ = k
    · simp only [setA, if_pos h, List.map_cons, List.nodup_cons]
      exact ⟨h ▸ hnd.1, hnd.2⟩
    · simp only [setA, if_neg h, List.map_cons, List.nodup_cons]
      refine ⟨?_, ih hnd.2⟩
      intro hk
      rcases List.mem_map.mp hk with ⟨q, hq, hq1⟩
      have hq' := mem_setA rest k v q hq
      rcases hq' with h1 | h1
      · exact h (by rw [← hq1, h1])
      · exact hnd.1 (List.mem_map.mpr ⟨q, h1, hq1⟩)

theorem eraseA_not_mem {α : Type} (l : List (String × α)) (k : String)
    (h : k ∉ l.map Prod.fst) : eraseA l k = l := by
  induction l with
  | nil => rfl
  | cons p rest ih =>
    obtain ⟨k₀, v₀⟩ := p
    simp only [List.map_cons, List.mem_cons, not_or] at h
    have hne : ¬ k₀ = k := fun hh => h.1 hh.symm
    simp [eraseA, hne, ih h.2]

theorem length_eraseA_of_mem {α : Type} (l : List (String × α)) (k : String)
    (v : α) (hmem : (k, v) ∈ l) (hnd : (l.map Prod.fst).Nodup) :
    (eraseA l k).length + 1 = l.length := by
  induction l with
  | nil => simp at hmem
  | cons p rest ih =>
    obtain ⟨k₀, v₀⟩ := p
    simp only [List.map_cons, List.nodup_cons] at hnd
    by_cases h : k₀ = k
    · subst h
      simp [eraseA, eraseA_not_mem rest k₀ hnd.1]
    · rcases List.mem_cons.mp hmem with h1 | h1
      · exact absurd (congrArg Prod.fst h1).symm h
      · simp only [eraseA, if_neg h, List.length_cons]
        rw [← ih h1 hnd.2]

theorem length_setA_le {α : Type} (l : List (String × α)) (k : String) (v : α) :
    (setA l k v).length ≤ l.length + 1 := by
  induction l with
  | nil => simp [setA]
  | cons p rest ih =>
    obtain ⟨k₀, v₀⟩ := p
    by_cases h : k₀ = k
    · simp [setA, h]
    · simp only [setA, if_neg h, List.length_cons]
      omega

/-! ## Oldest-entry selection lemmas -/

theorem oldestKeyAux_spec (l : List (String × CacheEntry)) :
    ∀ (k : String) (ts : Nat),
    ∃ tsm : Nat, tsm ≤ ts ∧
      ((oldestKeyAux k ts l = k ∧ tsm = ts) ∨
        ∃ e : CacheEntry, e.timestamp = tsm ∧ (oldestKeyAux k ts l, e) ∈ l) ∧
      ∀ p ∈ l, tsm ≤ p.2.timestamp := by
  induction l with
  | nil =>
    intro k ts
    exact ⟨ts, le_refl ts, Or.inl ⟨rfl, rfl⟩, by simp⟩
  | cons q rest ih =>
    intro k ts
    obtain ⟨k', e'⟩ := q
    by_cases h : e'.timestamp < ts
    · obtain ⟨tsm, h1, h2, h3⟩ := ih k' e'.timestamp
      refine ⟨tsm, le_trans h1 (Nat.le_of_lt h), ?_, ?_⟩
      · rcases h2 with ⟨hk, hts⟩ | ⟨e, hts, hmem⟩
        · exact Or.inr ⟨e', hts ▸ rfl, by
            simp only [oldestKeyAux, if_pos h, hk]
            exact List.mem_cons.mpr (Or.inl rfl)⟩
        · exact Or.inr ⟨e, hts, by
            simp only [oldestKeyAux, if_pos h]
            exact List.mem_cons.mpr (Or.inr hmem)⟩
      · intro p hp
        rcases List.mem_cons.mp hp with h4 | h4
        · rw [h4]
          exact h1
        · exact h3 p h4
    · obtain ⟨tsm, h1, h2, h3⟩ := ih k ts
      refine ⟨tsm, h1, ?_, ?_⟩
      · rcases h2 with ⟨hk, hts⟩ | ⟨e, hts, hmem⟩
        · exact Or.inl ⟨by simp only [oldestKeyAux, if_neg h]; exact hk, hts⟩
        · exact Or.inr ⟨e, hts, by
            simp only [oldestKeyAux, if_neg h]
            exact List.mem_cons.mpr (Or.inr hmem)⟩
      · intro p hp
        rcases List.mem_cons.mp hp with h4 | h4
        · rw [h4]
          exact le_trans h1 (Nat.le_of_not_lt h)
        · exact h3 p h4

theorem oldestKey_spec (cache : List (String × CacheEntry)) (k : String)
    (h : oldestKey cache = some k) :
    ∃ e : CacheEntry, (k, e) ∈ cache ∧
      ∀ p ∈ cache, e.timestamp ≤ p.2.timestamp := by
  match cache with
  | [] => simp [oldestKey] at h
  | (k₀, e₀) :: rest =>
    simp only [oldestKey, Option.some.injEq] at h
    obtain ⟨tsm, h1, h2, h3⟩ := oldestKeyAux_spec rest k₀ e₀.timestamp
    rcases h2 with ⟨hk, hts⟩ | ⟨e, hts, hmem⟩
    · refine ⟨e₀, ?_, ?_⟩
      · rw [← h, hk]
        exact List.mem_cons.mpr (Or.inl rfl)
      · intro p hp
        rcases List.mem_cons.mp hp with h4 | h4
        · rw [h4]
        · exact le_trans (hts ▸ h1) (h3 p h4)
    · refine ⟨e, ?_, ?_⟩
      · rw [← h]
        exact List.mem_cons.mpr (Or.inr hmem)
      · intro p hp
        rcases List.mem_cons.mp hp with h4 | h4
        · rw [h4, hts]
          exact h1
        · rw [hts]
          exact h3 p h4

theorem exists_other_key {α : Type} (l : List (String × α)) (k : String)
    (hnd : (l.map Prod.fst).Nodup) (hlen : 2 ≤ l.length) :
    ∃ p ∈ l, p.1 ≠ k := by
  rcases l with _ | ⟨a, _ | ⟨b, rest⟩⟩
  · simp at hlen
  · simp at hlen
  · by_cases h : a.1 = k
    · refine ⟨b, by simp, ?_⟩
      intro hb
      simp only [List.map_cons, List.nodup_cons] at hnd
      exact hnd.1 (by
        rw [h, ← hb]
        exact List.mem_cons.mpr (Or.inl rfl))
    · exact ⟨a, by simp, h⟩

/-! ## The cache claims -/

/-- C4: for a key present in the cache, a lookup whose age is below the TTL
returns the identical stored result and leaves the cache unchanged; a lookup
whose age exceeds the TTL misses, removes exactly that entry, and leaves
every other entry in place. -/
theorem get_cached_result_ttl (t : Nat) (key : String)
    (cache : List (String × CacheEntry)) (e : CacheEntry)
    (hfind : lookupA cache key = some e) :
    (t - e.timestamp < CACHE_TTL_SECONDS →
      get_cached_result t key cache = (some e.result, cache)) ∧
    (t - e.timestamp > CACHE_TTL_SECONDS →
      (get_cached_result t key cache).1 = none ∧
      lookupA (get_cached_result t key cache).2 key = none ∧
      ∀ k', k' ≠ key →
        lookupA (get_cached_result t key cache).2 k' = lookupA cache k') := by
  constructor
  · intro h
    simp [get_cached_result, hfind, h]
  · intro h
    have h' : ¬ (t - e.timestamp < CACHE_TTL_SECONDS) := by omega
    refine ⟨?_, ?_, ?_⟩
    · simp [get_cached_result, hfind, h']
    · simp [get_cached_result, hfind, h', lookupA_eraseA_self]
    · intro k' hk
      simp only [get_cached_result, hfind, if_neg h']
      exact lookupA_eraseA_ne cache key k' hk

/-- Witness for C4 at a concrete cache: entry of timestamp 7, probed at
time 400 (age 393 exceeds the TTL of 300). -/
theorem get_cached_result_ttl_witness :
    (lookupA [("k", (⟨"r", 7⟩ : CacheEntry))] "k" = some ⟨"r", 7⟩) ∧
    ((400 - (7 : Nat) < CACHE_TTL_SECONDS →
      get_cached_result 400 "k" [("k", ⟨"r", 7⟩)] =
        (some "r", [("k", ⟨"r", 7⟩)])) ∧
    (400 - (7 : Nat) > CACHE_TTL_SECONDS →
      (get_cached_result 400 "k" [("k", ⟨"r", 7⟩)]).1 = none ∧
      lookupA (get_cached_result 400 "k" [("k", ⟨"r", 7⟩)]).2 "k" = none ∧
      ∀ k', k' ≠ "k" →
        lookupA (get_cached_result 400 "k" [("k", ⟨"r", 7⟩)]).2 k' =
          lookupA [("k", ⟨"r", 7⟩)] k')) :=
  ⟨rfl, get_cached_result_ttl 400 "k" [("k", ⟨"r", 7⟩)] ⟨"r", 7⟩ rfl⟩

/-- C5: when a put makes the cache exceed `MAX_CACHE_SIZE`, exactly one entry
is evicted afterwards, namely an entry with the smallest stored timestamp
across the whole (post-insert) map; every other entry — including the
just-inserted key — is left intact.  The clock hypothesis `hfresh` states
that the new entry's timestamp is later than every stored one. -/
theorem set_cached_result_evicts_oldest (t : Nat) (key result : String)
    (cache : List (String × CacheEntry))
    (hnd : (cache.map Prod.fst).Nodup)
    (hfresh : ∀ p ∈ cache, p.2.timestamp < t)
    (hsize : (setA cache key ⟨result, t⟩).length > MAX_CACHE_SIZE) :
    ∃ kmin emin,
      lookupA (setA cache key ⟨result, t⟩) kmin = some emin ∧
      (∀ p ∈ setA cache key ⟨result, t⟩, emin.timestamp ≤ p.2.timestamp) ∧
      kmin ≠ key ∧
      set_cached_result t key result cache =
        eraseA (setA cache key ⟨result, t⟩) kmin ∧
      (set_cached_result t key result cache).length + 1 =
        (setA cache key ⟨result, t⟩).length ∧
      lookupA (set_cached_result t key result cache) kmin = none ∧
      lookupA (set_cached_result t key result cache) key = some ⟨result, t⟩ ∧
      ∀ k', k' ≠ kmin →
        lookupA (set_cached_result t key result cache) k' =
          lookupA (setA cache key ⟨result, t⟩) k' := by
  set cache1 := setA cache key ⟨result, t⟩ with hc1
  have hnd1 : (cache1.map Prod.fst).Nodup := nodup_keys_setA _ _ _ hnd
  have hsize' : MAX_CACHE_SIZE < cache1.length := hsize
  obtain ⟨kmin, hkmin⟩ : ∃ k, oldestKey cache1 = some k := by
    cases hc : cache1 with
    | nil =>
      rw [hc] at hsize'
      simp [MAX_CACHE_SIZE] at hsize'
    | cons p rest =>
      obtain ⟨k₀, e₀⟩ := p
      exact ⟨oldestKeyAux k₀ e₀.timestamp rest, rfl⟩
  obtain ⟨emin, hmem, hmin⟩ := oldestKey_spec cache1 kmin hkmin
  have hlk : lookupA cache1 kmin = some emin := lookupA_of_mem _ _ _ hmem hnd1
  have hkey_lookup : lookupA cache1 key = some ⟨result, t⟩ := by
    rw [hc1]
    exact lookupA_setA_self _ _ _
  have hkmin_ne : kmin ≠ key := by
    intro hh
    subst hh
    have he : emin = ⟨result, t⟩ := by
      have := hlk.symm.trans hkey_lookup
      exact Option.some.inj this
    have hlen2 : 2 ≤ cache1.length := by
      have : MAX_CACHE_SIZE = 100 := rfl
      omega
    obtain ⟨p, hp, hpne⟩ := exists_other_key cache1 kmin hnd1 hlen2
    have hpc : p ∈ cache := mem_setA_of_ne cache kmin ⟨result, t⟩ p (hc1 ▸ hp) hpne
    have h1 : emin.timestamp ≤ p.2.timestamp := hmin p hp
    have h2 : p.2.timestamp < t := hfresh p hpc
    rw [he] at h1
    simp at h1
    omega
  have hset : set_cached_result t key result cache = eraseA cache1 kmin := by
    rw [set_cached_result]
    simp only [← hc1]
    rw [if_pos hsize', hkmin]
  refine ⟨kmin, emin, hlk, hmin, hkmin_ne, hset, ?_, ?_, ?_, ?_⟩
  · rw [hset]
    exact length_eraseA_of_mem cache1 kmin emin hmem hnd1
  · rw [hset]
    exact lookupA_eraseA_self _ _
  · rw [hset, lookupA_eraseA_ne _ _ _ (Ne.symm hkmin_ne)]
    exact hkey_lookup
  · intro k' hk
    rw [hset]
    exact lookupA_eraseA_ne _ _ _ hk

/-- Witness for C5: inserting key `"new"` at time `1000` into the full
100-entry `witnessCache` makes the map exceed the bound and evicts the
single oldest entry. -/
theorem set_cached_result_evicts_oldest_witness :
    ((witnessCache.map Prod.fst).Nodup) ∧
    (∀ p ∈ witnessCache, p.2.timestamp < 1000) ∧
    ((setA witnessCache "new" ⟨"res", 1000⟩).length > MAX_CACHE_SIZE) ∧
    (∃ kmin emin,
      lookupA (setA witnessCache "new" ⟨"res", 1000⟩) kmin = some emin ∧
      (∀ p ∈ setA witnessCache "new" ⟨"res", 1000⟩,
        emin.timestamp ≤ p.2.timestamp) ∧
      kmin ≠ "new" ∧
      set_cached_result 1000 "new" "res" witnessCache =
        eraseA (setA witnessCache "new" ⟨"res", 1000⟩) kmin ∧
      (set_cached_result 1000 "new" "res" witnessCache).length + 1 =
        (setA witnessCache "new" ⟨"res", 1000⟩).length ∧
      lookupA (set_cached_result 1000 "new" "res" witnessCache) kmin = none ∧
      lookupA (set_cached_result 1000 "new" "res" witnessCache) "new" =
        some ⟨"res", 1000⟩ ∧
      ∀ k', k' ≠ kmin →
        lookupA (set_cached_result 1000 "new" "res" witnessCache) k' =
          lookupA (setA witnessCache "new" ⟨"res", 1000⟩) k') :=
  ⟨by decide, by decide, by decide,
    set_cached_result_evicts_oldest 1000 "new" "res" witnessCache
      (by decide) (by decide) (by decide)⟩

/-! ## The registry claims -/

/-- C1 (failing trace): after a successful first call under one
configuration, a second call under a configuration with a *different*
fingerprinted credential returns the stale first handle and leaves the
module state (stored fingerprint included) untouched: the early
`_memory_client_initialized` return makes the fingerprint comparison dead
code, so no new handle is constructed.  The constructor parameter would
build the distinct handle `id = 1` for the changed credential. -/
theorem get_memory_client_stale_after_config_change :
    let cc : RegEnv → Option Client := fun e =>
      some ⟨ClientKind.cloud, if e.mem0ApiKey = "key0" then 0 else 1⟩
    let cl : RegEnv → Option Client := fun _ => some ⟨ClientKind.localMem, 2⟩
    let upd : Client → Bool := fun _ => true
    let env0 : RegEnv := ⟨"key0", "localhost", "6333", "", ""⟩
    let env1 : RegEnv := ⟨"key1", "localhost", "6333", "", ""⟩
    let r0 := get_memory_client_safe cc upd cl env0 initRegState
    r0.1 = some ⟨ClientKind.cloud, 0⟩ ∧
    fingerprint env0 ≠ fingerprint env1 ∧
    get_memory_client_safe cc upd cl env1 r0.2 =
      (some ⟨ClientKind.cloud, 0⟩, r0.2) ∧
    r0.2.configHash = some (fingerprint env0) := by
  decide

/-- C2 (failing trace): a first call whose constructor raises returns the
"unavailable" result, but `_memory_client_initialized` was already set, so
a second call — here with a constructor that would now succeed — returns
`none` again without re-attempting construction: one failure permanently
disables the registry. -/
theorem get_memory_client_poisoned_after_failure :
    let ccFail : RegEnv → Option Client := fun _ => none
    let ccOk : RegEnv → Option Client := fun _ => some ⟨ClientKind.cloud, 5⟩
    let cl : RegEnv → Option Client := fun _ => some ⟨ClientKind.localMem, 2⟩
    let upd : Client → Bool := fun _ => true
    let env0 : RegEnv := ⟨"key0", "localhost", "6333", "", ""⟩
    let r0 := get_memory_client_safe ccFail upd cl env0 initRegState
    r0.1 = none ∧
    r0.2.initialized = true ∧
    get_memory_client_safe ccOk upd cl env0 r0.2 = (none, r0.2) := by
  decide

/-! ## The authentication claim -/

/-- C10: when the `X-API-Key` header is absent or empty, the credential
check is skipped entirely — even against a non-empty allow-list — so the
request is never rejected as an invalid credential; the outcome is decided
by the rate limiter alone. -/
theorem authenticate_request_skips_key_check (allowedEnv : String)
    (apiKey : Option String) (clientHost pathUserId : Option String)
    (t : Nat) (store : List (String × RateWindow))
    (h : apiKey = none ∨ apiKey = some "") :
    (authenticate_request allowedEnv apiKey clientHost pathUserId t store).1 ≠
      AuthOutcome.invalidKey ∧
    authenticate_request allowedEnv apiKey clientHost pathUserId t store =
      (if (check_rate_limit (clientHost.getD "unknown")
            (pathUserId.getD "anonymous") t store).1
        then AuthOutcome.ok (pathUserId.getD "anonymous")
          (clientHost.getD "unknown")
        else AuthOutcome.rateLimited,
        (check_rate_limit (clientHost.getD "unknown")
          (pathUserId.getD "anonymous") t store).2) := by
  have hkey : apiKey.getD "" = "" := by rcases h with h | h <;> simp [h]
  have hcond : ¬(apiKey.getD "" ≠ "" ∧
      verify_api_key allowedEnv (apiKey.getD "") = false) := by
    simp [hkey]
  constructor
  · simp only [authenticate_request, if_neg hcond]
    split <;> simp
  · simp only [authenticate_request, if_neg hcond]
    split <;> simp_all

/-- Witness for C10: absent header, two-key allow-list configured. -/
theorem authenticate_request_skips_key_check_witness :
    ((none : Option String) = none ∨ (none : Option String) = some "") ∧
    ((authenticate_request "secret1,secret2" none (some "1.2.3.4")
        (some "alice") 0 []).1 ≠ AuthOutcome.invalidKey ∧
      authenticate_request "secret1,secret2" none (some "1.2.3.4")
          (some "alice") 0 [] =
        (if (check_rate_limit ((some "1.2.3.4").getD "unknown")
              ((some "alice").getD "anonymous") 0 []).1
          then AuthOutcome.ok ((some "alice").getD "anonymous")
            ((some "1.2.3.4").getD "unknown")
          else AuthOutcome.rateLimited,
          (check_rate_limit ((some "1.2.3.4").getD "unknown")
            ((some "alice").getD "anonymous") 0 []).2)) :=
  ⟨Or.inl rfl,
    authenticate_request_skips_key_check "secret1,secret2" none
      (some "1.2.3.4") (some "alice") 0 [] (Or.inl rfl)⟩

/-! ## The batch-add claim -/

/-- Over string elements the per-element loop emits one line per element
and stores exactly the non-failing elements, independently of one
another. -/
theorem batchLoop_strs (addErr : PyElem → Option String) (uid : String)
    (ss : List String) : ∀ backend : List (String × List PyElem),
    ∃ b : List (String × List PyElem),
    batchLoop addErr uid (ss.map PyElem.str) backend =
      (Except.ok (ss.map (strLineFor addErr)), b) ∧
    (lookupA b uid).getD [] =
      (lookupA backend uid).getD [] ++
        (ss.filter (fun s => (addErr (PyElem.str s)).isNone)).map
          PyElem.str := by
  induction ss with
  | nil => intro backend; exact ⟨backend, rfl, by simp⟩
  | cons s ss ih =>
    intro backend
    cases he : addErr (PyElem.str s) with
    | none =>
      obtain ⟨b, h1, h2⟩ :=
        ih (setA backend uid ((lookupA backend uid).getD [] ++ [PyElem.str s]))
      refine ⟨b, ?_, ?_⟩
      · simp [batchLoop, he, h1, strLineFor]
      · rw [h2, lookupA_setA_self]
        simp [he, List.filter_cons, List.append_assoc]
    | some e =>
      obtain ⟨b, h1, h2⟩ := ih backend
      refine ⟨b, ?_, ?_⟩
      · simp [batchLoop, he, h1, strLineFor]
      · rw [h2]
        simp [he, List.filter_cons]

/-- A non-string element after a string prefix aborts the loop: the
collected lines are discarded, the slicing `TypeError` text escapes, the
prefix successes (and, when its own `add` succeeded, the non-string
element) persist in the backend, and the remaining elements are never
attempted. -/
theorem batchLoop_abort (addErr : PyElem → Option String) (uid : String)
    (err : String) (rest : List PyElem) (ss : List String) :
    ∀ backend : List (String × List PyElem),
    ∃ b : List (String × List PyElem),
    batchLoop addErr uid (ss.map PyElem.str ++ PyElem.nonStr err :: rest)
        backend = (Except.error err, b) ∧
    (lookupA b uid).getD [] =
      (lookupA backend uid).getD [] ++
        (ss.filter (fun s => (addErr (PyElem.str s)).isNone)).map
          PyElem.str ++
        (if (addErr (PyElem.nonStr err)).isNone then [PyElem.nonStr err]
          else []) := by
  induction ss with
  | nil =>
    intro backend
    cases he : addErr (PyElem.nonStr err) with
    | none =>
      refine ⟨setA backend uid
        ((lookupA backend uid).getD [] ++ [PyElem.nonStr err]), ?_, ?_⟩
      · simp [batchLoop, he]
      · rw [lookupA_setA_self]
        simp [he]
    | some e =>
      refine ⟨backend, ?_, ?_⟩
      · simp [batchLoop, he]
      · simp [he]
  | cons s ss ih =>
    intro backend
    cases he : addErr (PyElem.str s) with
    | none =>
      obtain ⟨b, h1, h2⟩ :=
        ih (setA backend uid ((lookupA backend uid).getD [] ++ [PyElem.str s]))
      refine ⟨b, ?_, ?_⟩
      · simp [batchLoop, he, h1]
      · rw [h2, lookupA_setA_self]
        simp [he, List.filter_cons, List.append_assoc]
    | some e =>
      obtain ⟨b, h1, h2⟩ := ih backend
      refine ⟨b, ?_, ?_⟩
      · simp [batchLoop, he, h1]
      · rw [h2]
        simp [he, List.filter_cons]

/-- C9 (amended): with the backend available, `batch_add_memories` rejects
non-array input and arrays longer than the batch ceiling of 10 with a
validation error and no insert; when every element of an admissible array
is a string, every element is attempted independently with one
success-or-failure line each and exactly the non-failing elements stored;
but an array containing a non-string element aborts the loop at the first
such element — the call returns the function-level
"Error in batch operation" text with no per-element report, later elements
are never attempted, and the earlier elements' successful inserts persist
(no rollback). -/
theorem batch_add_memories_spec (addErr : PyElem → Option String)
    (uid : String) (input : BatchInput)
    (backend : List (String × List PyElem)) :
    (input = BatchInput.notJson →
      batch_add_memories addErr true uid input backend =
        ("Error: invalid JSON format for memories", backend)) ∧
    (input = BatchInput.nonArray →
      batch_add_memories addErr true uid input backend =
        ("Error: memories must be a JSON array", backend)) ∧
    (∀ ms, input = BatchInput.arr ms → BATCH_SIZE_LIMIT < ms.length →
      batch_add_memories addErr true uid input backend =
        ("Error: batch size limited to 10 memories", backend)) ∧
    (∀ ss : List String, input = BatchInput.arr (ss.map PyElem.str) →
      (ss.map PyElem.str).length ≤ BATCH_SIZE_LIMIT →
      (batch_add_memories addErr true uid input backend).1 =
        "Batch operation completed:\n" ++
          joinSep "\n" (ss.map (strLineFor addErr)) ∧
      (lookupA (batch_add_memories addErr true uid input backend).2
          uid).getD [] =
        (lookupA backend uid).getD [] ++
          (ss.filter (fun s => (addErr (PyElem.str s)).isNone)).map
            PyElem.str) ∧
    (∀ (ss : List String) (err : String) (rest : List PyElem),
      input = BatchInput.arr (ss.map PyElem.str ++ PyElem.nonStr err :: rest) →
      (ss.map PyElem.str ++ PyElem.nonStr err :: rest).length ≤
        BATCH_SIZE_LIMIT →
      (batch_add_memories addErr true uid input backend).1 =
        "Error in batch operation: " ++ err ∧
      (lookupA (batch_add_memories addErr true uid input backend).2
          uid).getD [] =
        (lookupA backend uid).getD [] ++
          (ss.filter (fun s => (addErr (PyElem.str s)).isNone)).map
            PyElem.str ++
          (if (addErr (PyElem.nonStr err)).isNone then [PyElem.nonStr err]
            else [])) := by
  refine ⟨?_, ?_, ?_, ?_, ?_⟩
  · intro h
    subst h
    rfl
  · intro h
    subst h
    rfl
  · intro ms h hlen
    subst h
    simp only [batch_add_memories]
    rw [if_neg (by simp), if_pos hlen]
    rfl
  · intro ss h hlen
    subst h
    obtain ⟨b, h1, h2⟩ := batchLoop_strs addErr uid ss backend
    simp only [batch_add_memories]
    rw [if_neg (by simp), if_neg (Nat.not_lt.mpr hlen), h1]
    exact ⟨rfl, h2⟩
  · intro ss err rest h hlen
    subst h
    obtain ⟨b, h1, h2⟩ := batchLoop_abort addErr uid err rest ss backend
    simp only [batch_add_memories]
    rw [if_neg (by simp), if_neg (Nat.not_lt.mpr hlen), h1]
    exact ⟨rfl, h2⟩

/-- Witness for the amended C9: a three-element all-string batch whose
middle element fails; the report carries one line per element and elements
1 and 3 are stored. -/
theorem batch_add_memories_spec_witness :
    (BatchInput.arr ((["alpha", "bad", "gamma"] : List String).map
        PyElem.str) =
      BatchInput.arr ((["alpha", "bad", "gamma"] : List String).map
        PyElem.str) ∧
      ((["alpha", "bad", "gamma"] : List String).map PyElem.str).length ≤
        BATCH_SIZE_LIMIT) ∧
    ((batch_add_memories
        (fun m => if m = PyElem.str "bad" then some "boom" else none) true
        "u" (BatchInput.arr ((["alpha", "bad", "gamma"] : List String).map
          PyElem.str)) []).1 =
      "Batch operation completed:\n" ++
        joinSep "\n" ((["alpha", "bad", "gamma"] : List String).map
          (strLineFor
            (fun m => if m = PyElem.str "bad" then some "boom" else none))) ∧
      (lookupA (batch_add_memories
          (fun m => if m = PyElem.str "bad" then some "boom" else none) true
          "u" (BatchInput.arr ((["alpha", "bad", "gamma"] : List String).map
            PyElem.str)) []).2 "u").getD [] =
        (lookupA ([] : List (String × List PyElem)) "u").getD [] ++
          ((["alpha", "bad", "gamma"] : List String).filter
            (fun s => ((fun m => if m = PyElem.str "bad" then some "boom"
              else none) (PyElem.str s)).isNone)).map PyElem.str) :=
  ⟨⟨rfl, by decide⟩,
    (batch_add_memories_spec
      (fun m => if m = PyElem.str "bad" then some "boom" else none) "u"
      (BatchInput.arr ((["alpha", "bad", "gamma"] : List String).map
        PyElem.str)) []).2.2.2.1
      ["alpha", "bad", "gamma"] rfl (by decide)⟩

/-- C9 counterexample: a 3-element JSON array whose middle element is a
number.  Every `add` call would succeed, yet the call returns the
function-level "Error in batch operation" text with no per-element lines,
and the third element — which would have succeeded — was never attempted:
a failing element does prevent the remaining elements, refuting the claim
as stated. -/
theorem batch_add_memories_aborts_on_nonstring :
    ((batch_add_memories (fun _ => none) true "u"
        (BatchInput.arr [PyElem.str "alpha",
          PyElem.nonStr "int object is not subscriptable",
          PyElem.str "gamma"]) []).1 =
      "Error in batch operation: int object is not subscriptable") ∧
    (lookupA (batch_add_memories (fun _ => none) true "u"
        (BatchInput.arr [PyElem.str "alpha",
          PyElem.nonStr "int object is not subscriptable",
          PyElem.str "gamma"]) []).2 "u").getD [] =
      [PyElem.str "alpha",
        PyElem.nonStr "int object is not subscriptable"] := by
  decide

/-! ## The search claim -/

theorem mem_eraseA {α : Type} (l : List (String × α)) (k : String)
    (p : String × α) (hp : p ∈ eraseA l k) : p ∈ l := by
  induction l with
  | nil => simp [eraseA] at hp
  | cons q rest ih =>
    obtain ⟨k₀, v₀⟩ := q
    by_cases h : k₀ = k
    · simp only [eraseA, if_pos h] at hp
      exact List.mem_cons.mpr (Or.inr (ih hp))
    · simp only [eraseA, if_neg h] at hp
      rcases List.mem_cons.mp hp with h1 | h1
      · exact List.mem_cons.mpr (Or.inl h1)
      · exact List.mem_cons.mpr (Or.inr (ih h1))

theorem mem_get_cached_result_snd (t : Nat) (key : String)
    (cache : List (String × CacheEntry)) (p : String × CacheEntry)
    (hp : p ∈ (get_cached_result t key cache).2) : p ∈ cache := by
  cases hlk : lookupA cache key with
  | none =>
    have h2 : get_cached_result t key cache = (none, cache) := by
      simp [get_cached_result, hlk]
    rw [h2] at hp
    exact hp
  | some e =>
    by_cases hfresh : t - e.timestamp < CACHE_TTL_SECONDS
    · have h2 : get_cached_result t key cache = (some e.result, cache) := by
        simp [get_cached_result, hlk, hfresh]
      rw [h2] at hp
      exact hp
    · have h2 : get_cached_result t key cache = (none, eraseA cache key) := by
        simp [get_cached_result, hlk, hfresh]
      rw [h2] at hp
      exact mem_eraseA _ _ _ hp

/-- When no entry is stored under the call's key, `search_memories`
computes the filtered-and-truncated result and stores it only when the
parsed tag list is empty. -/
theorem search_memories_miss (digest : String → Int → String → String)
    (t : Nat) (uid : String) (allMems : List Record) (query : String)
    (limit : Int) (tags : String) (cache : List (String × CacheEntry))
    (hlk : lookupA cache
      (get_cache_key digest "search" uid query limit tags) = none) :
    search_memories digest t uid allMems query limit tags cache =
      (jsonDumpsList (searchFlattened allMems limit (parseTags tags)),
        if parseTags tags = [] then
          set_cached_result t
            (get_cache_key digest "search" uid query limit tags)
            (jsonDumpsList (searchFlattened allMems limit (parseTags tags)))
            cache
        else cache) := by
  have hprobe : get_cached_result t
      (get_cache_key digest "search" uid query limit tags) cache =
      (none, cache) := by
    simp [get_cached_result, hlk]
  simp only [search_memories, hprobe]
  by_cases hft : parseTags tags = [] <;> simp [hft]

/-- A fresh, non-empty cached value under the call's key is served as-is
when the parsed tag list is empty. -/
theorem search_memories_hit (digest : String → Int → String → String)
    (t : Nat) (uid : String) (allMems : List Record) (query : String)
    (limit : Int) (tags : String) (cache : List (String × CacheEntry))
    (e : CacheEntry)
    (hlk : lookupA cache
      (get_cache_key digest "search" uid query limit tags) = some e)
    (hfresh : t - e.timestamp < CACHE_TTL_SECONDS)
    (hne : e.result ≠ "") (hft : parseTags tags = []) :
    search_memories digest t uid allMems query limit tags cache =
      (e.result, cache) := by
  have hprobe : get_cached_result t
      (get_cache_key digest "search" uid query limit tags) cache =
      (some e.result, cache) := by
    simp [get_cached_result, hlk, hfresh]
  simp only [search_memories, hprobe]
  simp [hne, hft]

/-- With a non-empty parsed tag list the cache is bypassed: the result is
recomputed from the backend records whatever the cache holds, and nothing
is stored (only the probe's lazy expiry of the probed key can occur). -/
theorem search_memories_filtered (digest : String → Int → String → String)
    (t : Nat) (uid : String) (allMems : List Record) (query : String)
    (limit : Int) (tags : String) (cache : List (String × CacheEntry))
    (hft : parseTags tags ≠ []) :
    search_memories digest t uid allMems query limit tags cache =
      (jsonDumpsList (searchFlattened allMems limit (parseTags tags)),
        (get_cached_result t
          (get_cache_key digest "search" uid query limit tags) cache).2) := by
  rcases hp : get_cached_result t
      (get_cache_key digest "search" uid query limit tags) cache with ⟨o, c'⟩
  cases o with
  | none => simp only [search_memories, hp]; simp [hft]
  | some r => simp only [search_memories, hp]; simp [hft]

/-- For a non-negative limit, `l[:limit]` keeps at most `limit` elements
(for a negative limit it keeps all but the last `-limit`, which can exceed
the limit — see the C6 counterexample). -/
theorem pySliceTo_length_le {α : Type} (l : List α) (limit : Int)
    (hlim : 0 ≤ limit) : ((pySliceTo l limit).length : Int) ≤ limit := by
  unfold pySliceTo
  rw [if_pos hlim]
  have h : (List.take limit.toNat l).length ≤ limit.toNat := by
    simp [List.length_take]
  calc ((List.take limit.toNat l).length : Int) ≤ (limit.toNat : Int) := by
        exact_mod_cast h
    _ = limit := Int.toNat_of_nonneg hlim

/-- For a non-negative limit, the list `searchFlattened` builds never
exceeds `limit` entries. -/
theorem searchFlattened_length_le (allMems : List Record) (limit : Int)
    (filterTags : List String) (hlim : 0 ≤ limit) :
    ((searchFlattened allMems limit filterTags).length : Int) ≤ limit := by
  unfold searchFlattened
  split <;> simpa using pySliceTo_length_le _ limit hlim

/-- C6 (amended): `search_memories` serves from and stores into the result
cache only when the parsed tag list is empty; with a non-empty filter tag
list the cache is bypassed (the result is recomputed from the backend
whatever the cache holds, and no entry is added); and for every call with
a non-negative `limit` the returned JSON list holds at most `limit`
records, produced by client-side tag filtering followed by the `[:limit]`
slice (`hwf` states the system invariant that an entry stored under this
call's key is a serialized list within this `limit`).  A negative Python
`limit` keeps all but the last `-limit` records instead — see the
counterexample. -/
theorem search_memories_cache_spec (digest : String → Int → String → String)
    (t : Nat) (uid : String) (allMems : List Record) (query : String)
    (limit : Int) (tags : String) (cache : List (String × CacheEntry))
    (hwf : ∀ e : CacheEntry,
      lookupA cache
        (get_cache_key digest "search" uid query limit tags) = some e →
      ∃ l : List String, e.result = jsonDumpsList l ∧
        (l.length : Int) ≤ limit) :
    (0 ≤ limit → ∃ l : List String,
      (search_memories digest t uid allMems query limit tags cache).1 =
        jsonDumpsList l ∧ (l.length : Int) ≤ limit) ∧
    (parseTags tags ≠ [] →
      search_memories digest t uid allMems query limit tags cache =
        (jsonDumpsList (searchFlattened allMems limit (parseTags tags)),
          (get_cached_result t
            (get_cache_key digest "search" uid query limit tags) cache).2) ∧
      ∀ p ∈ (search_memories digest t uid allMems query limit tags cache).2,
        p ∈ cache) ∧
    (parseTags tags = [] → ∀ e : CacheEntry,
      lookupA cache
        (get_cache_key digest "search" uid query limit tags) = some e →
      t - e.timestamp < CACHE_TTL_SECONDS → e.result ≠ "" →
      search_memories digest t uid allMems query limit tags cache =
        (e.result, cache)) ∧
    (parseTags tags = [] →
      lookupA cache
        (get_cache_key digest "search" uid query limit tags) = none →
      search_memories digest t uid allMems query limit tags cache =
        (jsonDumpsList (searchFlattened allMems limit (parseTags tags)),
          set_cached_result t
            (get_cache_key digest "search" uid query limit tags)
            (jsonDumpsList (searchFlattened allMems limit (parseTags tags)))
            cache)) := by
  refine ⟨?_, ?_, ?_, ?_⟩
  · intro hlim
    by_cases hft : parseTags tags = []
    · cases hlk : lookupA cache
        (get_cache_key digest "search" uid query limit tags) with
      | none =>
        refine ⟨searchFlattened allMems limit (parseTags tags), ?_,
          searchFlattened_length_le _ _ _ hlim⟩
        rw [search_memories_miss digest t uid allMems query limit tags cache
          hlk]
      | some e =>
        by_cases hfresh : t - e.timestamp < CACHE_TTL_SECONDS
        · by_cases hne : e.result = ""
          · refine ⟨searchFlattened allMems limit (parseTags tags), ?_,
              searchFlattened_length_le _ _ _ hlim⟩
            have hprobe : get_cached_result t
                (get_cache_key digest "search" uid query limit tags) cache =
                (some e.result, cache) := by
              simp [get_cached_result, hlk, hfresh]
            simp only [search_memories, hprobe]
            simp [hne, hft]
          · obtain ⟨l, hl1, hl2⟩ := hwf e hlk
            refine ⟨l, ?_, hl2⟩
            rw [search_memories_hit digest t uid allMems query limit tags
              cache e hlk hfresh hne hft]
            exact hl1
        · refine ⟨searchFlattened allMems limit (parseTags tags), ?_,
            searchFlattened_length_le _ _ _ hlim⟩
          have hprobe : get_cached_result t
              (get_cache_key digest "search" uid query limit tags) cache =
              (none, eraseA cache
                (get_cache_key digest "search" uid query limit tags)) := by
            simp [get_cached_result, hlk, hfresh]
          simp only [search_memories, hprobe]
          simp [hft]
    · refine ⟨searchFlattened allMems limit (parseTags tags), ?_,
        searchFlattened_length_le _ _ _ hlim⟩
      rw [search_memories_filtered digest t uid allMems query limit tags
        cache hft]
  · intro hft
    refine ⟨search_memories_filtered digest t uid allMems query limit tags
      cache hft, ?_⟩
    intro p hp
    rw [search_memories_filtered digest t uid allMems query limit tags cache
      hft] at hp
    exact mem_get_cached_result_snd t _ cache p hp
  · intro hft e hlk hfresh hne
    exact search_memories_hit digest t uid allMems query limit tags cache e
      hlk hfresh hne hft
  · intro hft hlk
    rw [search_memories_miss digest t uid allMems query limit tags cache hlk,
      if_pos hft]

/-- Witness for C6 at concrete inputs: three backend records, tag filter
`"a, b"` (parsed to two tags), limit 2, empty cache. -/
theorem search_memories_cache_spec_witness :
    (∀ e : CacheEntry,
      lookupA ([] : List (String × CacheEntry))
        (get_cache_key (fun _ _ _ => "d") "search" "u" "q" 2 "a, b") =
        some e →
      ∃ l : List String, e.result = jsonDumpsList l ∧
        (l.length : Int) ≤ 2) ∧
    (((0 : Int) ≤ 2 → ∃ l : List String,
      (search_memories (fun _ _ _ => "d") 0 "u"
        [⟨"m1", ["a"]⟩, ⟨"m2", ["b"]⟩, ⟨"m3", []⟩] "q" 2 "a, b" []).1 =
        jsonDumpsList l ∧ (l.length : Int) ≤ 2) ∧
    (parseTags "a, b" ≠ [] →
      search_memories (fun _ _ _ => "d") 0 "u"
        [⟨"m1", ["a"]⟩, ⟨"m2", ["b"]⟩, ⟨"m3", []⟩] "q" 2 "a, b" [] =
        (jsonDumpsList (searchFlattened
          [⟨"m1", ["a"]⟩, ⟨"m2", ["b"]⟩, ⟨"m3", []⟩] 2 (parseTags "a, b")),
          (get_cached_result 0
            (get_cache_key (fun _ _ _ => "d") "search" "u" "q" 2 "a, b")
            []).2) ∧
      ∀ p ∈ (search_memories (fun _ _ _ => "d") 0 "u"
        [⟨"m1", ["a"]⟩, ⟨"m2", ["b"]⟩, ⟨"m3", []⟩] "q" 2 "a, b" []).2,
        p ∈ ([] : List (String × CacheEntry))) ∧
    (parseTags "a, b" = [] → ∀ e : CacheEntry,
      lookupA ([] : List (String × CacheEntry))
        (get_cache_key (fun _ _ _ => "d") "search" "u" "q" 2 "a, b") =
        some e →
      0 - e.timestamp < CACHE_TTL_SECONDS → e.result ≠ "" →
      search_memories (fun _ _ _ => "d") 0 "u"
        [⟨"m1", ["a"]⟩, ⟨"m2", ["b"]⟩, ⟨"m3", []⟩] "q" 2 "a, b" [] =
        (e.result, [])) ∧
    (parseTags "a, b" = [] →
      lookupA ([] : List (String × CacheEntry))
        (get_cache_key (fun _ _ _ => "d") "search" "u" "q" 2 "a, b") =
        none →
      search_memories (fun _ _ _ => "d") 0 "u"
        [⟨"m1", ["a"]⟩, ⟨"m2", ["b"]⟩, ⟨"m3", []⟩] "q" 2 "a, b" [] =
        (jsonDumpsList (searchFlattened
          [⟨"m1", ["a"]⟩, ⟨"m2", ["b"]⟩, ⟨"m3", []⟩] 2 (parseTags "a, b")),
          set_cached_result 0
            (get_cache_key (fun _ _ _ => "d") "search" "u" "q" 2 "a, b")
            (jsonDumpsList (searchFlattened
              [⟨"m1", ["a"]⟩, ⟨"m2", ["b"]⟩, ⟨"m3", []⟩] 2
              (parseTags "a, b"))) []))) :=
  ⟨fun e he => absurd he (by simp [lookupA]),
    search_memories_cache_spec (fun _ _ _ => "d") 0 "u"
      [⟨"m1", ["a"]⟩, ⟨"m2", ["b"]⟩, ⟨"m3", []⟩] "q" 2 "a, b" []
      (fun e he => absurd he (by simp [lookupA]))⟩

/-- C6 counterexample: the tool declares `limit: int`, and at the
reachable call `limit = -1` Python's `all_memories[:limit]` keeps all but
the last record: three backend records yield a two-record result, and
`2 ≤ -1` is false, so the claim's unconditional "at most `limit` records"
bound is false as stated. -/
theorem search_memories_negative_limit :
    ((search_memories (fun _ _ _ => "d") 0 "u"
        [⟨"m1", []⟩, ⟨"m2", []⟩, ⟨"m3", []⟩] "q" (-1) "" []).1 =
      jsonDumpsList ["m1", "m2"]) ∧
    ¬(((["m1", "m2"] : List String).length : Int) ≤ (-1 : Int)) := by
  decide

/-! ## Substring lemmas for the cache purge -/

theorem str_data_append (a b : String) : (a ++ b).data = a.data ++ b.data :=
  rfl

theorem colon_data : (":" : String).data = [':'] := rfl

theorem hasInfix_iff (pat : List Char) : ∀ s : List Char,
    hasInfix pat s = true ↔ pat <:+: s := by
  intro s
  induction s with
  | nil =>
    rw [hasInfix]
    simp [List.isEmpty_iff]
  | cons c rest ih =>
    rw [hasInfix]
    simp only [Bool.or_eq_true, List.isPrefixOf_iff_prefix, ih,
      List.infix_cons_iff]

theorem strContains_iff (s pat : String) :
    strContains s pat = true ↔ pat.data <:+: s.data := by
  rw [strContains, hasInfix_iff]

/-- A list with one occurrence of `c` splits uniquely at that occurrence. -/
theorem first_occ_split (c : Char) (x₁ : List Char) :
    ∀ (x₂ y₁ y₂ : List Char), x₁ ++ c :: y₁ = x₂ ++ c :: y₂ →
    c ∉ x₁ → c ∉ x₂ → x₁ = x₂ ∧ y₁ = y₂ := by
  induction x₁ with
  | nil =>
    intro x₂ y₁ y₂ h h₁ h₂
    cases x₂ with
    | nil =>
      simp only [List.nil_append, List.cons.injEq] at h
      exact ⟨rfl, h.2⟩
    | cons b x₂ =>
      simp only [List.nil_append, List.cons_append, List.cons.injEq] at h
      exact absurd (List.mem_cons.mpr (Or.inl h.1)) h₂
  | cons a x₁ ih =>
    intro x₂ y₁ y₂ h h₁ h₂
    cases x₂ with
    | nil =>
      simp only [List.cons_append, List.nil_append, List.cons.injEq] at h
      exact absurd (List.mem_cons.mpr (Or.inl h.1.symm)) h₁
    | cons b x₂ =>
      simp only [List.cons_append, List.cons.injEq] at h
      obtain ⟨hab, h'⟩ := h
      have h₁' : c ∉ x₁ := fun hh => h₁ (List.mem_cons.mpr (Or.inr hh))
      have h₂' : c ∉ x₂ := fun hh => h₂ (List.mem_cons.mpr (Or.inr hh))
      obtain ⟨hx, hy⟩ := ih x₂ y₁ y₂ h' h₁' h₂'
      exact ⟨by rw [hab, hx], hy⟩

/-- In a list with exactly two colons, the only occurrence of a
colon-delimited pattern is between those two colons. -/
theorem colon_pattern_unique (a u d v : List Char)
    (ha : ':' ∉ a) (hu : ':' ∉ u) (hd : ':' ∉ d) (hv : ':' ∉ v)
    (h : (':' :: (v ++ [':'])) <:+: (a ++ ':' :: (u ++ ':' :: d))) :
    v = u := by
  obtain ⟨s, t, heq⟩ := h
  have heq' : s ++ ':' :: (v ++ ':' :: t) = a ++ ':' :: (u ++ ':' :: d) := by
    rw [← heq]
    simp [List.append_assoc]
  have hcnt := congrArg (List.count ':') heq'
  simp only [List.count_append, List.count_cons_self] at hcnt
  rw [List.count_eq_zero.mpr hv, List.count_eq_zero.mpr hu,
    List.count_eq_zero.mpr hd, List.count_eq_zero.mpr ha] at hcnt
  have hs : ':' ∉ s := by
    rw [← List.count_eq_zero (a := ':')]
    omega
  obtain ⟨-, h2⟩ := first_occ_split ':' s a _ _ heq' hs ha
  exact (first_occ_split ':' v u _ _ h2 hv hu).1

/-- The colon-delimited pattern of a key's own user id does occur in the
key. -/
theorem colon_pattern_self (a u d : List Char) :
    (':' :: (u ++ [':'])) <:+: (a ++ ':' :: (u ++ ':' :: d)) :=
  ⟨a, d, by simp [List.append_assoc]⟩

theorem get_cache_key_data (digest : String → Int → String → String)
    (op uid q : String) (l : Int) (tg : String) :
    (get_cache_key digest op uid q l tg).data =
      op.data ++ ':' :: (uid.data ++ ':' :: (digest q l tg).data) := by
  simp [get_cache_key, str_data_append, colon_data, List.append_assoc]

theorem colon_pat_data (uid : String) :
    (":" ++ uid ++ ":").data = ':' :: (uid.data ++ [':']) := by
  simp [str_data_append, colon_data]

/-- The purge pattern `":{uid}:"` occurs in every key built for `uid`. -/
theorem strContains_key_self (digest : String → Int → String → String)
    (op uid q : String) (l : Int) (tg : String) :
    strContains (get_cache_key digest op uid q l tg)
      (":" ++ uid ++ ":") = true := by
  rw [strContains_iff, colon_pat_data, get_cache_key_data]
  exact colon_pattern_self _ _ _

/-- For colon-free components, the purge pattern of `uid` does not occur in
a key built for a different user. -/
theorem strContains_key_other (digest : String → Int → String → String)
    (op uid owner q : String) (l : Int) (tg : String)
    (hop : ':' ∉ op.data) (huid : ':' ∉ uid.data)
    (hown : ':' ∉ owner.data) (hdig : ':' ∉ (digest q l tg).data)
    (hne : owner ≠ uid) :
    strContains (get_cache_key digest op owner q l tg)
      (":" ++ uid ++ ":") = false := by
  rw [Bool.eq_false_iff]
  intro hc
  rw [strContains_iff, colon_pat_data, get_cache_key_data] at hc
  have := colon_pattern_unique op.data owner.data (digest q l tg).data
    uid.data hop hown hdig huid hc
  apply hne
  cases owner
  cases uid
  exact congrArg String.mk this.symm

/-! ## The delete-all cache purge claim -/

/-- The `delete_all=true` branch: clear the user's backend store and purge
every cache key containing `":{uid}:"`. -/
theorem delete_all_unfold (digest : String → Int → String → String)
    (loads : String → Option (List String)) (t : Nat) (uid : String)
    (allMems : List Record) (query tags : String)
    (cache : List (String × CacheEntry))
    (backend : List (String × List String)) :
    delete_memories digest loads t true uid allMems query tags true cache
        backend =
      ("Successfully deleted all memories",
        cache.filter (fun kv => !(strContains kv.1 (":" ++ uid ++ ":"))),
        setA backend uid []) := rfl

theorem filter_provCache_contains (digest : String → Int → String → String)
    (uid : String) (entries : List CacheProv) :
    (provCache digest entries).filter
        (fun kv => !(strContains kv.1 (":" ++ uid ++ ":"))) =
      provCache digest (entries.filter
        (fun p => !(strContains (provKey digest p) (":" ++ uid ++ ":")))) := by
  induction entries with
  | nil => rfl
  | cons p rest ih =>
    simp only [provCache, List.map_cons, List.filter_cons] at ih ⊢
    by_cases hq : strContains (provKey digest p) (":" ++ uid ++ ":")
    · simp [hq, ih]
    · simp [hq, ih]

/-- C7 (amended): with colon-free user identities (and the colon-free hex
digest), `delete_all=true` purges exactly the cache entries whose key was
built for the deleting user: every entry of that user is removed, and
every entry of any other identity survives unchanged.  (Without the
colon-freeness restriction the substring purge can also hit another
identity — see the counterexample.) -/
theorem delete_all_purges_user_cache (digest : String → Int → String → String)
    (loads : String → Option (List String)) (t : Nat) (uid : String)
    (allMems : List Record) (query tags : String)
    (backend : List (String × List String)) (entries : List CacheProv)
    (huid : ':' ∉ uid.data)
    (hown : ∀ p ∈ entries, ':' ∉ p.owner.data)
    (hdig : ∀ q l tg, ':' ∉ (digest q l tg).data) :
    (delete_memories digest loads t true uid allMems query tags true
        (provCache digest entries) backend).2.1 =
      provCache digest (entries.filter (fun p => !(p.owner == uid))) ∧
    (∀ p ∈ entries, p.owner = uid → ∀ e : CacheEntry,
      (provKey digest p, e) ∉
        (delete_memories digest loads t true uid allMems query tags true
          (provCache digest entries) backend).2.1) ∧
    (∀ p ∈ entries, p.owner ≠ uid →
      (provKey digest p, p.entry) ∈
        (delete_memories digest loads t true uid allMems query tags true
          (provCache digest entries) backend).2.1) := by
  rw [delete_all_unfold]
  dsimp only
  have hpt : ∀ p ∈ entries,
      (!(strContains (provKey digest p) (":" ++ uid ++ ":"))) =
        !(p.owner == uid) := by
    intro p hp
    by_cases h : p.owner = uid
    · simp only [provKey]
      rw [h]
      simp [strContains_key_self]
    · have hc := strContains_key_other digest "search" uid p.owner p.query
        p.limit p.tags (by decide) huid (hown p hp) (hdig _ _ _) h
      simp only [provKey]
      rw [hc]
      simp [h]
  refine ⟨?_, ?_, ?_⟩
  · rw [filter_provCache_contains]
    congr 1
    exact List.filter_congr hpt
  · intro p hp howner e hmem
    have hpred := List.of_mem_filter hmem
    simp only at hpred
    have hself : strContains (provKey digest p) (":" ++ uid ++ ":") = true := by
      simp only [provKey]
      rw [howner]
      exact strContains_key_self digest "search" uid p.query p.limit p.tags
    rw [hself] at hpred
    simp at hpred
  · intro p hp hne
    apply List.mem_filter.mpr
    constructor
    · exact List.mem_map.mpr ⟨p, hp, rfl⟩
    · have hc := strContains_key_other digest "search" uid p.owner p.query
        p.limit p.tags (by decide) huid (hown p hp) (hdig _ _ _) hne
      simp only [provKey]
      simp [hc]

/-- Witness for the amended C7: users `"u"` and `"w"`, one cache entry
each; deleting all for `"u"` leaves exactly `"w"`'s entry. -/
theorem delete_all_purges_user_cache_witness :
    (':' ∉ ("u" : String).data) ∧
    (∀ p ∈ [(⟨"u", "q1", 5, "", ⟨"r1", 0⟩⟩ : CacheProv),
        ⟨"w", "q2", 5, "", ⟨"r2", 0⟩⟩], ':' ∉ p.owner.data) ∧
    (∀ q l tg, ':' ∉ ((fun (_ : String) (_ : Nat) (_ : String) => "d") q l
      tg).data) ∧
    ((delete_memories (fun _ _ _ => "d") (fun _ => none) 0 true "u" [] "" ""
        true
        (provCache (fun _ _ _ => "d")
          [⟨"u", "q1", 5, "", ⟨"r1", 0⟩⟩, ⟨"w", "q2", 5, "", ⟨"r2", 0⟩⟩])
        []).2.1 =
      provCache (fun _ _ _ => "d")
        (([(⟨"u", "q1", 5, "", ⟨"r1", 0⟩⟩ : CacheProv),
          ⟨"w", "q2", 5, "", ⟨"r2", 0⟩⟩]).filter
            (fun p => !(p.owner == "u"))) ∧
    (∀ p ∈ [(⟨"u", "q1", 5, "", ⟨"r1", 0⟩⟩ : CacheProv),
        ⟨"w", "q2", 5, "", ⟨"r2", 0⟩⟩], p.owner = "u" → ∀ e : CacheEntry,
      (provKey (fun _ _ _ => "d") p, e) ∉
        (delete_memories (fun _ _ _ => "d") (fun _ => none) 0 true "u" [] ""
          "" true
          (provCache (fun _ _ _ => "d")
            [⟨"u", "q1", 5, "", ⟨"r1", 0⟩⟩, ⟨"w", "q2", 5, "", ⟨"r2", 0⟩⟩])
          []).2.1) ∧
    (∀ p ∈ [(⟨"u", "q1", 5, "", ⟨"r1", 0⟩⟩ : CacheProv),
        ⟨"w", "q2", 5, "", ⟨"r2", 0⟩⟩], p.owner ≠ "u" →
      (provKey (fun _ _ _ => "d") p, p.entry) ∈
        (delete_memories (fun _ _ _ => "d") (fun _ => none) 0 true "u" [] ""
          "" true
          (provCache (fun _ _ _ => "d")
            [⟨"u", "q1", 5, "", ⟨"r1", 0⟩⟩, ⟨"w", "q2", 5, "", ⟨"r2", 0⟩⟩])
          []).2.1)) :=
  ⟨by decide, by decide,
    fun _ _ _ => (by decide : ':' ∉ ("d" : String).data),
    delete_all_purges_user_cache (fun _ _ _ => "d") (fun _ => none) 0 "u" []
      "" "" []
      [⟨"u", "q1", 5, "", ⟨"r1", 0⟩⟩, ⟨"w", "q2", 5, "", ⟨"r2", 0⟩⟩]
      (by decide) (by decide)
      (fun _ _ _ => (by decide : ':' ∉ ("d" : String).data))⟩

/-- C7 counterexample: with a user id containing a colon, the substring
purge for user `"u"` also removes the entry belonging to the distinct
identity `"u:v"` (its key `"search:u:v:d"` contains `":u:"`), so the claim
"every cache entry belonging to any other identity is left unchanged" is
false as stated. -/
theorem delete_all_purges_other_identity :
    (("u:v" : String) ≠ "u") ∧
    (delete_memories (fun _ _ _ => "d") (fun _ => none) 0 true "u" [] "" ""
        true (provCache (fun _ _ _ => "d") [⟨"u:v", "q", 5, "", ⟨"r", 0⟩⟩])
        []).2.1 = [] := by
  decide

/-! ## The selective-deletion claim -/

/-- C8 counterexample: with delete_all=false, a non-empty query and no
stored memory matching the criteria, `delete_memories` returns
`"No memories found matching the criteria"` — a message that does not
mention "supported" at all, hence not a "not supported" result. -/
theorem delete_memories_no_match_message :
    ((delete_memories (fun _ _ _ => "d")
        (fun s => if s = "[]" then some [] else none) 0 true "u" [] "x" ""
        false [] []).1 = "No memories found matching the criteria") ∧
    strContains (delete_memories (fun _ _ _ => "d")
        (fun s => if s = "[]" then some [] else none) 0 true "u" [] "x" ""
        false [] []).1 "supported" = false := by
  decide

/-- C8 (amended): for `delete_all=false` with a non-empty query or tags and
the backend available, the operation always returns a descriptive text and
never mutates the backend (so it neither raises nor silently deletes):
when at least one memory matches it returns the fixed "selective deletion
is not yet supported" text; when none match it returns "No memories found
matching the criteria". -/
theorem delete_memories_selective_spec
    (digest : String → Int → String → String)
    (loads : String → Option (List String)) (t : Nat) (uid : String)
    (allMems : List Record) (query tags : String)
    (cache : List (String × CacheEntry))
    (backend : List (String × List String)) (mems : List String)
    (hqt : query ≠ "" ∨ tags ≠ "")
    (hload : loads (search_memories digest t uid allMems query 100 tags
      cache).1 = some mems) :
    (mems.length = 0 →
      (delete_memories digest loads t true uid allMems query tags false
        cache backend).1 = "No memories found matching the criteria") ∧
    (mems.length ≠ 0 →
      (delete_memories digest loads t true uid allMems query tags false
        cache backend).1 =
        "Found " ++ toString mems.length ++
          " memories matching criteria, but selective deletion is not yet supported. Use delete_all=true to delete all memories." ∧
      strContains (delete_memories digest loads t true uid allMems query
        tags false cache backend).1 "not yet supported" = true) ∧
    (delete_memories digest loads t true uid allMems query tags false cache
      backend).2.2 = backend := by
  have hstep : delete_memories digest loads t true uid allMems query tags
      false cache backend =
      (if mems.length = 0 then
        ("No memories found matching the criteria",
          (search_memories digest t uid allMems query 100 tags cache).2,
          backend)
      else
        ("Found " ++ toString mems.length ++
            " memories matching criteria, but selective deletion is not yet supported. Use delete_all=true to delete all memories.",
          (search_memories digest t uid allMems query 100 tags cache).2,
          backend)) := by
    simp only [delete_memories, hload]
    rw [if_pos hqt]
    simp
  have hsub : strContains ("Found " ++ toString mems.length ++
      " memories matching criteria, but selective deletion is not yet supported. Use delete_all=true to delete all memories.")
      "not yet supported" = true := by
    rw [strContains_iff, str_data_append]
    have h1 : ("not yet supported" : String).data <:+:
        (" memories matching criteria, but selective deletion is not yet supported. Use delete_all=true to delete all memories." :
          String).data :=
      (hasInfix_iff _ _).mp (by decide)
    exact h1.trans (List.suffix_append _ _).isInfix
  refine ⟨?_, ?_, ?_⟩
  · intro h
    rw [hstep, if_pos h]
  · intro h
    rw [hstep, if_neg h]
    exact ⟨rfl, hsub⟩
  · rw [hstep]
    split
    · rfl
    · rfl

/-- Witness for the amended C8: one matching memory; the call returns the
"not yet supported" text and the backend is untouched. -/
theorem delete_memories_selective_spec_witness :
    (("x" : String) ≠ "" ∨ ("" : String) ≠ "") ∧
    ((fun s => if s = jsonDumpsList ["m1"] then some ["m1"] else none)
      (search_memories (fun _ _ _ => "d") 0 "u" [⟨"m1", []⟩] "x" 100 ""
        []).1 = some ["m1"]) ∧
    (((["m1"] : List String).length = 0 →
      (delete_memories (fun _ _ _ => "d")
        (fun s => if s = jsonDumpsList ["m1"] then some ["m1"] else none) 0
        true "u" [⟨"m1", []⟩] "x" "" false [] []).1 =
        "No memories found matching the criteria") ∧
    ((["m1"] : List String).length ≠ 0 →
      (delete_memories (fun _ _ _ => "d")
        (fun s => if s = jsonDumpsList ["m1"] then some ["m1"] else none) 0
        true "u" [⟨"m1", []⟩] "x" "" false [] []).1 =
        "Found " ++ toString (["m1"] : List String).length ++
          " memories matching criteria, but selective deletion is not yet supported. Use delete_all=true to delete all memories." ∧
      strContains (delete_memories (fun _ _ _ => "d")
        (fun s => if s = jsonDumpsList ["m1"] then some ["m1"] else none) 0
        true "u" [⟨"m1", []⟩] "x" "" false [] []).1
        "not yet supported" = true) ∧
    (delete_memories (fun _ _ _ => "d")
      (fun s => if s = jsonDumpsList ["m1"] then some ["m1"] else none) 0
      true "u" [⟨"m1", []⟩] "x" "" false [] []).2.2 = []) :=
  ⟨Or.inl (by decide), by decide,
    delete_memories_selective_spec (fun _ _ _ => "d")
      (fun s => if s = jsonDumpsList ["m1"] then some ["m1"] else none) 0
      "u" [⟨"m1", []⟩] "x" "" [] [] ["m1"] (Or.inl (by decide))
      (by decide)⟩

end Mem0
